import Mathlib

/-!
Verification of the tensorzero gateway's batch-inference endpoint and the
GCP Vertex Gemini provider adapter.  Rust code is shallowly embedded as
Lean definitions: structs become structures, enums become inductives,
`Result<T, Error>` becomes `Except ErrorDetails T`.  `f32` values are
only carried through (never computed with) and are modelled by their bit
pattern; JSON values are likewise only carried and are modelled by their
serialized text.  The `raw` audit field of responses (the verbatim
provider body) plays no role in any property below and is omitted.
-/

namespace TensorZero

/-- An `f32` value, modelled by its bit pattern (the gateway only copies
these values, it never computes with them). -/
structure F32 where
  bits : Nat
deriving DecidableEq, Repr, Inhabited

/-- A `serde_json::Value`, modelled by its serialized text (the code paths
below only pass schemas through without inspecting them). -/
structure JsonValue where
  text : String
deriving DecidableEq, Repr, Inhabited

/-- A UUIDv7, modelled by its millisecond timestamp component and its
random component. -/
structure UuidV7 where
  timestampMs : Nat
  rand : Nat
deriving DecidableEq, Repr, Inhabited

/-- `BatchStatus` from `inference/types/batch.rs` (status of a stored
`BatchRequest` row). -/
inductive BatchStatus where
  | pending
  | completed
  | failed
deriving DecidableEq, Repr

/-- `PollInferenceResponse` from `endpoints/batch_inference.rs` (serialized
as `{status: "pending" | "completed" | "failed", message?}`). -/
inductive PollInferenceResponse where
  | pending
  | completed
  | failed (message : String)
deriving DecidableEq, Repr

/-- `ErrorDetails` variants used by the embedded code (`error.rs`).  In the
source, `AllVariantsFailed` carries a `HashMap<String, Error>`; we model it
as an association list. -/
inductive ErrorDetails where
  | invalidRequest (message : String)
  | invalidMessage (message : String)
  | batchInputValidation (index : Nat) (message : String)
  | gcpVertexClient (message : String) (statusCode : Nat)
  | gcpVertexServer (message : String)
  | apiKeyMissing (providerName : String)
  | allVariantsFailed (errors : List (String × ErrorDetails))
  | unknownVariant (name : String)
  | invalidFunctionVariants (message : String)
  | inference (message : String)

/-- The observable outcome of running a handler body: either a value is
returned, or the handler panics (Rust `todo!()` / `panic!`-style exits). -/
inductive PollHandlerOutcome where
  | response (r : PollInferenceResponse)
  | panicked (msg : String)

/-- Whether a handler outcome is a panic (an unimplemented arm). -/
def PollHandlerOutcome.isUnimplemented : PollHandlerOutcome → Bool
  | .panicked _ => true
  | .response _ => false

/-- The `match batch_request.status` at the end of
`poll_batch_inference_handler` (`batch_inference.rs:305-309`).  Every arm of
the source match is `todo!()`, which panics with "not yet implemented". -/
def poll_batch_inference_handler_match : BatchStatus → PollHandlerOutcome
  | .pending => .panicked "not yet implemented"
  | .completed => .panicked "not yet implemented"
  | .failed => .panicked "not yet implemented"

/-- The response the spec prescribes for each stored batch status:
Pending yields status "pending", Completed yields "completed", Failed
yields "failed" with a message. -/
def specPollResponse (failedMessage : String) : BatchStatus → PollInferenceResponse
  | .pending => .pending
  | .completed => .completed
  | .failed => .failed failedMessage

/-- `handle_gcp_vertex_gemini_error` (`gcp_vertex.rs:704-722`): status
401, 400, 413 or 429 maps to `GCPVertexClient{message, status_code}`, every
other status maps to `GCPVertexServer{message}`. -/
def handle_gcp_vertex_gemini_error (response_code : Nat) (response_body : String) :
    ErrorDetails :=
  if response_code = 401 ∨ response_code = 400 ∨ response_code = 413 ∨ response_code = 429 then
    .gcpVertexClient response_body response_code
  else
    .gcpVertexServer response_body

/-- `Usage` (`inference/types`). -/
structure Usage where
  prompt_tokens : Nat
  completion_tokens : Nat
deriving DecidableEq, Repr

/-- `Latency` (`inference/types`); durations in milliseconds. -/
inductive Latency where
  | nonStreaming (response_time : Nat)
  | streaming (ttfb : Nat) (total_time : Nat)
deriving DecidableEq, Repr

/-- `ToolCall` (`inference/types`): `{id, name, arguments}`. -/
structure ToolCall where
  id : String
  name : String
  arguments : String
deriving DecidableEq, Repr

/-- `ToolCallChunk` (`inference/types`): all fields optional. -/
structure ToolCallChunk where
  id : Option String
  name : Option String
  arguments : Option String
deriving DecidableEq, Repr

/-- `Tool` (`inference/types`). -/
structure Tool where
  name : String
  description : Option String
  parameters : JsonValue
deriving DecidableEq, Repr

/-- `ToolChoice` (`inference/types`). -/
inductive ToolChoice where
  | choiceNone
  | auto
  | required
  | tool (name : String)
deriving DecidableEq, Repr

/-- `FunctionType` (`inference/types`). -/
inductive FunctionType where
  | chat
  | json
deriving DecidableEq, Repr

/-- `InferenceRequestMessage` (`inference/types`): tagged variant
`System | User | Assistant | Tool`. -/
inductive InferenceRequestMessage where
  | system (content : String)
  | user (content : String)
  | assistant (content : Option String) (tool_calls : Option (List ToolCall))
  | tool (tool_call_id : String) (content : String)
deriving DecidableEq, Repr

/-- `ModelInferenceRequest` (`inference/types`), the provider-agnostic
normalized request. -/
structure ModelInferenceRequest where
  messages : List InferenceRequestMessage
  tools_available : Option (List Tool)
  tool_choice : Option ToolChoice
  parallel_tool_calls : Option Bool
  temperature : Option F32
  max_tokens : Option Nat
  stream : Bool
  json_mode : Bool
  function_type : FunctionType
  output_schema : Option JsonValue
deriving DecidableEq, Repr

/-- `GCPVertexGeminiRole` (`gcp_vertex.rs:259-264`). -/
inductive GCPVertexGeminiRole where
  | user
  | model
deriving DecidableEq, Repr

/-- `GCPVertexGeminiFunctionCall` (`gcp_vertex.rs:266-270`). -/
structure GCPVertexGeminiFunctionCall where
  name : String
  args : String
deriving DecidableEq, Repr

/-- `GCPVertexGeminiContentPart` (`gcp_vertex.rs:279-295`). -/
inductive GCPVertexGeminiContentPart where
  | text (text : String)
  | functionCall (function_call : GCPVertexGeminiFunctionCall)
deriving DecidableEq, Repr

/-- `GCPVertexGeminiContent` (`gcp_vertex.rs:297-301`). -/
structure GCPVertexGeminiContent where
  role : GCPVertexGeminiRole
  parts : List GCPVertexGeminiContentPart
deriving DecidableEq, Repr

/-- The error message produced for a `System` message that is not the
leading message (`gcp_vertex.rs:332-334`). -/
def geminiSystemMessageError : String :=
  "Can\x27t convert System message to GCP Vertex Gemini message. Don\x27t pass System message in except as the first message in the chat."

/-- Whether a normalized message is a `System` message. -/
def InferenceRequestMessage.isSystem : InferenceRequestMessage → Bool
  | .system _ => true
  | _ => false

/-- `TryFrom<&InferenceRequestMessage> for GCPVertexGeminiContent`
(`gcp_vertex.rs:303-346`). -/
def GCPVertexGeminiContent.tryFrom (message : InferenceRequestMessage) :
    Except ErrorDetails GCPVertexGeminiContent :=
  match message with
  | .user content => .ok ⟨.user, [.text content]⟩
  | .assistant content tool_calls =>
    let parts : List GCPVertexGeminiContentPart :=
      (match content with
        | some c => [.text c]
        | none => []) ++
      (match tool_calls with
        | some calls => calls.map (fun tc => .functionCall ⟨tc.name, tc.arguments⟩)
        | none => [])
    .ok ⟨.model, parts⟩
  | .system _ => .error (.invalidMessage geminiSystemMessageError)
  | .tool tool_call_id content =>
    .ok ⟨.user, [.functionCall ⟨tool_call_id, content⟩]⟩

/-- `GCPVertexGeminiFunctionDeclaration` (`gcp_vertex.rs:348-353`). -/
structure GCPVertexGeminiFunctionDeclaration where
  name : String
  description : Option String
  parameters : Option JsonValue
deriving DecidableEq, Repr

/-- `GCPVertexGeminiTool` (`gcp_vertex.rs:358-362`). -/
inductive GCPVertexGeminiTool where
  | functionDeclarations (ds : List GCPVertexGeminiFunctionDeclaration)
deriving DecidableEq, Repr

/-- `From<&Vec<Tool>> for GCPVertexGeminiTool` (`gcp_vertex.rs:364-377`). -/
def GCPVertexGeminiTool.from (tools : List Tool) : GCPVertexGeminiTool :=
  .functionDeclarations
    (tools.map (fun tool => ⟨tool.name, tool.description, some tool.parameters⟩))

/-- `GCPVertexGeminiFunctionCallingMode` (`gcp_vertex.rs:379-385`). -/
inductive GCPVertexGeminiFunctionCallingMode where
  | auto
  | any
  | modeNone
deriving DecidableEq, Repr

/-- `GCPVertexGeminiFunctionCallingConfig` (`gcp_vertex.rs:387-392`). -/
structure GCPVertexGeminiFunctionCallingConfig where
  mode : GCPVertexGeminiFunctionCallingMode
  allowed_function_names : Option (List String)
deriving DecidableEq, Repr

/-- `GCPVertexGeminiToolConfig` (`gcp_vertex.rs:394-398`). -/
structure GCPVertexGeminiToolConfig where
  function_calling_config : GCPVertexGeminiFunctionCallingConfig
deriving DecidableEq, Repr

/-- `From<&ToolChoice> for GCPVertexGeminiToolConfig`
(`gcp_vertex.rs:400-429`). -/
def GCPVertexGeminiToolConfig.from (tool_choice : ToolChoice) :
    GCPVertexGeminiToolConfig :=
  match tool_choice with
  | .choiceNone => ⟨⟨.modeNone, none⟩⟩
  | .auto => ⟨⟨.auto, none⟩⟩
  | .required => ⟨⟨.any, none⟩⟩
  | .tool tool_name => ⟨⟨.auto, some [tool_name]⟩⟩

/-- `GCPVertexGeminiResponseMimeType` (`gcp_vertex.rs:431-438`). -/
inductive GCPVertexGeminiResponseMimeType where
  | textPlain
  | applicationJson
deriving DecidableEq, Repr

/-- `GCPVertexGeminiGenerationConfig` (`gcp_vertex.rs:441-449`). -/
structure GCPVertexGeminiGenerationConfig where
  stop_sequences : Option (List String)
  temperature : Option F32
  max_output_tokens : Option Nat
  response_mime_type : Option GCPVertexGeminiResponseMimeType
  response_schema : Option JsonValue
deriving DecidableEq, Repr

/-- `GCPVertexGeminiRequest` (`gcp_vertex.rs:451-460`). -/
structure GCPVertexGeminiRequest where
  contents : List GCPVertexGeminiContent
  tools : Option (List GCPVertexGeminiTool)
  tool_config : Option GCPVertexGeminiToolConfig
  generation_config : Option GCPVertexGeminiGenerationConfig
  system_instruction : Option GCPVertexGeminiContent
deriving DecidableEq, Repr

/-- The first step of `GCPVertexGeminiRequest::try_from`
(`gcp_vertex.rs:470-482`): a leading `System` message becomes the
`system_instruction` (with role `model`) and is removed from the messages
that will populate `contents`; otherwise no system instruction is set and
all messages are kept. -/
def geminiSplitSystem :
    List InferenceRequestMessage →
      Option GCPVertexGeminiContent × List InferenceRequestMessage
  | .system content :: tail => (some ⟨.model, [.text content]⟩, tail)
  | msgs => (none, msgs)

/-- The `(response_mime_type, response_schema)` pair computed by
`GCPVertexGeminiRequest::try_from` (`gcp_vertex.rs:495-501`): it inspects
only `output_schema`. -/
def geminiMimeSchema :
    Option JsonValue →
      Option GCPVertexGeminiResponseMimeType × Option JsonValue
  | some output_schema => (some .applicationJson, some output_schema)
  | none => (none, none)

/-- `TryFrom<&ModelInferenceRequest> for GCPVertexGeminiRequest`
(`gcp_vertex.rs:462-517`). -/
def GCPVertexGeminiRequest.tryFrom (request : ModelInferenceRequest) :
    Except ErrorDetails GCPVertexGeminiRequest :=
  match request.messages with
  | [] => .error (.invalidRequest "GCP Vertex Gemini requires at least one message")
  | first_message :: tail =>
    let sp := geminiSplitSystem (first_message :: tail)
    match sp.2.mapM GCPVertexGeminiContent.tryFrom with
    | .error e => .error e
    | .ok contents =>
      let tools := request.tools_available.map
        (fun tools => [GCPVertexGeminiTool.from tools])
      let tool_config := request.tool_choice.map GCPVertexGeminiToolConfig.from
      let mime_schema := geminiMimeSchema request.output_schema
      let generation_config := some
        { stop_sequences := none
          temperature := request.temperature
          max_output_tokens := request.max_tokens
          response_mime_type := mime_schema.1
          response_schema := mime_schema.2 : GCPVertexGeminiGenerationConfig }
      .ok { contents := contents
            tools := tools
            tool_config := tool_config
            generation_config := generation_config
            system_instruction := sp.1 }

/-- `GCPVertexGeminiResponseFunctionCall` (`gcp_vertex.rs:519-523`). -/
structure GCPVertexGeminiResponseFunctionCall where
  name : String
  args : String
deriving DecidableEq, Repr

/-- `GCPVertexGeminiResponseContentPart` (`gcp_vertex.rs:525-538`). -/
inductive GCPVertexGeminiResponseContentPart where
  | text (text : String)
  | functionCall (function_call : GCPVertexGeminiResponseFunctionCall)
deriving DecidableEq, Repr

/-- `GCPVertexGeminiResponseContent` (`gcp_vertex.rs:540-543`). -/
structure GCPVertexGeminiResponseContent where
  parts : List GCPVertexGeminiResponseContentPart
deriving DecidableEq, Repr

/-- `GCPVertexGeminiResponseCandidate` (`gcp_vertex.rs:545-548`). -/
structure GCPVertexGeminiResponseCandidate where
  content : Option GCPVertexGeminiResponseContent
deriving DecidableEq, Repr

/-- `GCPVertexGeminiUsageMetadata` (`gcp_vertex.rs:550-555`). -/
structure GCPVertexGeminiUsageMetadata where
  prompt_token_count : Nat
  candidates_token_count : Nat
deriving DecidableEq, Repr

/-- `From<GCPVertexGeminiUsageMetadata> for Usage`
(`gcp_vertex.rs:557-564`). -/
def Usage.fromMetadata (usage_metadata : GCPVertexGeminiUsageMetadata) : Usage :=
  ⟨usage_metadata.prompt_token_count, usage_metadata.candidates_token_count⟩

/-- `GCPVertexGeminiResponse` (`gcp_vertex.rs:566-571`). -/
structure GCPVertexGeminiResponse where
  candidates : List GCPVertexGeminiResponseCandidate
  usage_metadata : Option GCPVertexGeminiUsageMetadata
deriving DecidableEq, Repr

/-- `ModelInferenceResponse` (`inference/types`) restricted to the fields
the claims are about; the `raw` audit string (verbatim provider body) is
omitted. -/
structure ModelInferenceResponse where
  content : Option String
  tool_calls : Option (List ToolCall)
  usage : Usage
  latency : Latency
deriving DecidableEq, Repr

/-- `ModelInferenceResponseChunk` (`inference/types`); latency (time since
stream start) in milliseconds; `raw` omitted as above. -/
structure ModelInferenceResponseChunk where
  inference_id : UuidV7
  content : Option String
  tool_calls : Option (List ToolCallChunk)
  usage : Option Usage
  latency : Nat
deriving DecidableEq, Repr

/-- The `for part in parts` loop of the unary response conversion
(`gcp_vertex.rs:604-623`), threading the `message_text` and `tool_calls`
accumulators: texts are joined with `format!("{}\n{}", message, text)` and
each function call is pushed as a `ToolCall` with `id = name`. -/
def gcpPartsLoop :
    Option String → Option (List ToolCall) →
      List GCPVertexGeminiResponseContentPart →
      Option String × Option (List ToolCall)
  | message_text, tool_calls, [] => (message_text, tool_calls)
  | message_text, tool_calls, .text t :: rest =>
    let message_text := match message_text with
      | some message => some (message ++ "\n" ++ t)
      | none => some t
    gcpPartsLoop message_text tool_calls rest
  | message_text, tool_calls, .functionCall function_call :: rest =>
    let tool_call : ToolCall :=
      ⟨function_call.name, function_call.name, function_call.args⟩
    let tool_calls := match tool_calls with
      | some calls => some (calls ++ [tool_call])
      | none => some [tool_call]
    gcpPartsLoop message_text tool_calls rest

/-- `TryFrom<GCPVertexGeminiResponseWithLatency> for ModelInferenceResponse`
(`gcp_vertex.rs:578-640`): take the first candidate (error if none), error
if it has no content, fold its parts, and require usage metadata. -/
def ModelInferenceResponse.tryFromGemini (body : GCPVertexGeminiResponse)
    (latency : Latency) : Except ErrorDetails ModelInferenceResponse :=
  match body.candidates with
  | [] => .error (.gcpVertexServer "GCP Vertex Gemini response has no candidates")
  | first_candidate :: _ =>
    match first_candidate.content with
    | none => .error (.gcpVertexServer "GCP Vertex Gemini response has no content")
    | some content =>
      let mt_tc := gcpPartsLoop none none content.parts
      match body.usage_metadata with
      | none => .error (.gcpVertexServer
          "GCP Vertex Gemini non-streaming response has no usage metadata")
      | some usage_metadata =>
        .ok ⟨mt_tc.1, mt_tc.2, Usage.fromMetadata usage_metadata, latency⟩

/-- The `for part in parts` loop of the streaming chunk conversion
(`gcp_vertex.rs:672-691`); like `gcpPartsLoop` but producing
`ToolCallChunk`s with `id = Some(name)`. -/
def gcpChunkPartsLoop :
    Option String → Option (List ToolCallChunk) →
      List GCPVertexGeminiResponseContentPart →
      Option String × Option (List ToolCallChunk)
  | message_text, tool_calls, [] => (message_text, tool_calls)
  | message_text, tool_calls, .text t :: rest =>
    let message_text := match message_text with
      | some message => some (message ++ "\n" ++ t)
      | none => some t
    gcpChunkPartsLoop message_text tool_calls rest
  | message_text, tool_calls, .functionCall function_call :: rest =>
    let tool_call : ToolCallChunk :=
      ⟨some function_call.name, some function_call.name, some function_call.args⟩
    let tool_calls := match tool_calls with
      | some calls => some (calls ++ [tool_call])
      | none => some [tool_call]
    gcpChunkPartsLoop message_text tool_calls rest

/-- `TryFrom<GCPVertexGeminiStreamResponseWithMetadata> for
ModelInferenceResponseChunk` (`gcp_vertex.rs:648-702`): take the first
candidate (error if none); a candidate without content contributes an
empty part list; usage metadata is optional. -/
def ModelInferenceResponseChunk.tryFromGemini (body : GCPVertexGeminiResponse)
    (latency : Nat) (inference_id : UuidV7) :
    Except ErrorDetails ModelInferenceResponseChunk :=
  match body.candidates with
  | [] => .error (.gcpVertexServer "GCP Vertex Gemini response has no candidates")
  | first_candidate :: _ =>
    let parts := match first_candidate.content with
      | some content => content.parts
      | none => []
    let mt_tc := gcpChunkPartsLoop none none parts
    .ok ⟨inference_id, mt_tc.1, mt_tc.2,
      body.usage_metadata.map Usage.fromMetadata, latency⟩

/-- The text parts of a candidate's part list, in order. -/
def specGeminiTexts (parts : List GCPVertexGeminiResponseContentPart) :
    List String :=
  parts.filterMap fun p => match p with
    | .text t => some t
    | .functionCall _ => none

/-- Joining a list of texts with a single newline between consecutive
texts (the spec's reading of the response content). -/
def joinNewline : List String → String
  | [] => ""
  | [t] => t
  | t :: rest => t ++ "\n" ++ joinNewline rest

/-- The content the spec prescribes: the candidate's text parts joined
with a single newline, or `None` when there is no text part. -/
def specGeminiContent (parts : List GCPVertexGeminiResponseContentPart) :
    Option String :=
  match specGeminiTexts parts with
  | [] => none
  | t :: ts => some (joinNewline (t :: ts))

/-- The tool calls the spec prescribes: one per `functionCall` part, in
part order, with `id` equal to `name`. -/
def specGeminiToolCalls (parts : List GCPVertexGeminiResponseContentPart) :
    List ToolCall :=
  parts.filterMap fun p => match p with
    | .text _ => none
    | .functionCall fc => some ⟨fc.name, fc.name, fc.args⟩

/-- The optional tool-call list: `None` when there is no `functionCall`
part. -/
def specGeminiToolCallsOpt (parts : List GCPVertexGeminiResponseContentPart) :
    Option (List ToolCall) :=
  match specGeminiToolCalls parts with
  | [] => none
  | c :: cs => some (c :: cs)

/-- The value of the `message_text` accumulator described relative to the
remaining parts (used to characterize `gcpPartsLoop`). -/
def specGeminiContentAcc (message_text : Option String)
    (parts : List GCPVertexGeminiResponseContentPart) : Option String :=
  match message_text with
  | some m => some (joinNewline (m :: specGeminiTexts parts))
  | none => specGeminiContent parts

/-- The value of the `tool_calls` accumulator described relative to the
remaining parts (used to characterize `gcpPartsLoop`). -/
def specGeminiCallsAcc (tool_calls : Option (List ToolCall))
    (parts : List GCPVertexGeminiResponseContentPart) :
    Option (List ToolCall) :=
  match tool_calls with
  | some calls => some (calls ++ specGeminiToolCalls parts)
  | none => specGeminiToolCallsOpt parts

/-- `ChatCompletionInferenceParams` (`endpoints/inference.rs`): the
per-inference generation parameters. -/
structure ChatCompletionInferenceParams where
  temperature : Option F32
  max_tokens : Option Nat
  seed : Option Nat
  top_p : Option F32
  presence_penalty : Option F32
  frequency_penalty : Option F32
deriving DecidableEq, Repr

/-- `InferenceParams` (`endpoints/inference.rs`). -/
structure InferenceParams where
  chat_completion : ChatCompletionInferenceParams
deriving DecidableEq, Repr

/-- `BatchChatCompletionInferenceParams` (`batch_inference.rs:643-657`):
optional parallel arrays, one entry per inference. -/
structure BatchChatCompletionInferenceParams where
  temperature : Option (List (Option F32))
  max_tokens : Option (List (Option Nat))
  seed : Option (List (Option Nat))
  top_p : Option (List (Option F32))
  presence_penalty : Option (List (Option F32))
  frequency_penalty : Option (List (Option F32))
deriving DecidableEq, Repr

/-- `BatchInferenceParams` (`batch_inference.rs:638-641`). -/
structure BatchInferenceParams where
  chat_completion : BatchChatCompletionInferenceParams
deriving DecidableEq, Repr

/-- The `format!` string used by every length check in
`batch_inference.rs` (e.g. lines 694-700): `"<field> vector length (<len>)
does not match number of inferences (<n>)"`. -/
def vecLenMsg (field : String) (len n : Nat) : String :=
  field ++ " vector length (" ++ toString len ++
    ") does not match number of inferences (" ++ toString n ++ ")"

/-- One `if let Some(v) = &v { if v.len() != num_inferences { return Err(...) } }`
check from `TryFrom<BatchChatCompletionParamsWithSize>`
(`batch_inference.rs:692-768`). -/
def checkVecLen {α : Type} (field : String) (v : Option (List α)) (n : Nat) :
    Except ErrorDetails Unit :=
  match v with
  | some arr =>
    if arr.length = n then .ok ()
    else .error (.invalidRequest (vecLenMsg field arr.length n))
  | none => .ok ()

/-- The `for _ in 0..num_inferences` build loop of
`TryFrom<BatchChatCompletionParamsWithSize>` (`batch_inference.rs:778-797`):
each iteration takes `iter.next().unwrap_or(None)` from every parameter
iterator (here: the head of the remaining list, or `None` when
exhausted). -/
def buildChatParams :
    List (Option F32) → List (Option Nat) → List (Option Nat) →
      List (Option F32) → List (Option F32) → List (Option F32) → Nat →
      List ChatCompletionInferenceParams
  | _, _, _, _, _, _, 0 => []
  | ts, ms, ss, ps, pps, fps, n + 1 =>
    ⟨ts.head?.join, ms.head?.join, ss.head?.join, ps.head?.join,
      pps.head?.join, fps.head?.join⟩ ::
      buildChatParams ts.tail ms.tail ss.tail ps.tail pps.tail fps.tail n

/-- `TryFrom<BatchChatCompletionParamsWithSize> for
Vec<ChatCompletionInferenceParams>` (`batch_inference.rs:676-800`): check
every provided array's length in declaration order (temperature,
max_tokens, seed, top_p, presence_penalty, frequency_penalty), then build
the per-inference parameters from iterators over the arrays
(`unwrap_or_default` turns an absent array into an empty one). -/
def BatchChatCompletionParamsWithSize.tryInto
    (params : BatchChatCompletionInferenceParams) (num_inferences : Nat) :
    Except ErrorDetails (List ChatCompletionInferenceParams) := do
  checkVecLen "temperature" params.temperature num_inferences
  checkVecLen "max_tokens" params.max_tokens num_inferences
  checkVecLen "seed" params.seed num_inferences
  checkVecLen "top_p" params.top_p num_inferences
  checkVecLen "presence_penalty" params.presence_penalty num_inferences
  checkVecLen "frequency_penalty" params.frequency_penalty num_inferences
  return buildChatParams (params.temperature.getD []) (params.max_tokens.getD [])
    (params.seed.getD []) (params.top_p.getD [])
    (params.presence_penalty.getD []) (params.frequency_penalty.getD [])
    num_inferences

/-- `TryFrom<BatchInferenceParamsWithSize> for Vec<InferenceParams>`
(`batch_inference.rs:659-674`). -/
def BatchInferenceParamsWithSize.tryInto (params : BatchInferenceParams)
    (num_inferences : Nat) : Except ErrorDetails (List InferenceParams) :=
  match BatchChatCompletionParamsWithSize.tryInto
      params.chat_completion num_inferences with
  | .error e => .error e
  | .ok chat_completion_params =>
    .ok (chat_completion_params.map (fun p => ⟨p⟩))

/-- `DynamicJSONSchema` (`jsonschema_util.rs`): a lazily validated JSON
schema; `DynamicJSONSchema::new` just wraps the value. -/
structure DynamicJSONSchema where
  schema : JsonValue
deriving DecidableEq, Repr

/-- `TryFrom<BatchOutputSchemasWithSize> for Vec<Option<DynamicJSONSchema>>`
(`batch_inference.rs:802-830`). -/
def BatchOutputSchemasWithSize.tryInto
    (schemas : Option (List (Option JsonValue))) (num_inferences : Nat) :
    Except ErrorDetails (List (Option DynamicJSONSchema)) :=
  match schemas with
  | some schemas =>
    if schemas.length ≠ num_inferences then
      .error (.invalidRequest
        (vecLenMsg "output_schemas" schemas.length num_inferences))
    else
      .ok (schemas.map (fun schema => schema.map DynamicJSONSchema.mk))
  | none => .ok (List.replicate num_inferences none)

/-- The six optional parallel parameter arrays, for stating properties
uniformly over all of them. -/
inductive BatchParamField where
  | temperature
  | max_tokens
  | seed
  | top_p
  | presence_penalty
  | frequency_penalty
deriving DecidableEq, Repr

/-- The field name used in the error message for each parameter array. -/
def BatchParamField.name : BatchParamField → String
  | .temperature => "temperature"
  | .max_tokens => "max_tokens"
  | .seed => "seed"
  | .top_p => "top_p"
  | .presence_penalty => "presence_penalty"
  | .frequency_penalty => "frequency_penalty"

/-- The length of a provided parameter array (`none` if absent). -/
def BatchParamField.len (f : BatchParamField)
    (p : BatchChatCompletionInferenceParams) : Option Nat :=
  match f with
  | .temperature => p.temperature.map List.length
  | .max_tokens => p.max_tokens.map List.length
  | .seed => p.seed.map List.length
  | .top_p => p.top_p.map List.length
  | .presence_penalty => p.presence_penalty.map List.length
  | .frequency_penalty => p.frequency_penalty.map List.length

/-- Modelled from the spec: the fixed floor for UUIDv7 episode-id
timestamps (the `uuid_util` module is not under src/; the spec fixes only
that unix time 946766218, which is in the year 2000, lies below the floor
and that ids minted at the current wall clock pass).  We take
2020-01-01T00:00:00Z in milliseconds. -/
def EPISODE_ID_FLOOR_MS : Nat := 1577836800000

/-- Modelled from the spec: `validate_episode_id` (from the `uuid_util`
module, not under src/): an episode id whose UUIDv7 timestamp is below the
fixed floor is rejected with "Invalid Episode ID: Timestamp is too early"
(message taken from the source's own test at
`batch_inference.rs:857-868`). -/
def validate_episode_id (id : UuidV7) : Except String Unit :=
  if id.timestampMs < EPISODE_ID_FLOOR_MS then
    .error "Invalid Episode ID: Timestamp is too early"
  else .ok ()

/-- The `episode_ids.into_iter().map(|id| id.unwrap_or_else(Uuid::now_v7))`
fill (`batch_inference.rs:617-620`): each `None` entry is replaced by the
next freshly minted UUIDv7; `fresh k` models the result of the (k+1)-th
`Uuid::now_v7()` call made here. -/
def fillEpisodeIds (fresh : Nat → UuidV7) :
    Nat → List (Option UuidV7) → List UuidV7
  | _, [] => []
  | k, some id :: rest => id :: fillEpisodeIds fresh k rest
  | k, none :: rest => fresh k :: fillEpisodeIds fresh (k + 1) rest

/-- The `episode_ids.iter().enumerate().try_for_each(...)` validation
(`batch_inference.rs:624-631`), reporting the first failing index as
`BatchInputValidation{index, message}`. -/
def validateEpisodeIdsFrom (i : Nat) :
    List UuidV7 → Except ErrorDetails Unit
  | [] => .ok ()
  | id :: rest =>
    match validate_episode_id id with
    | .error msg => .error (.batchInputValidation i msg)
    | .ok () => validateEpisodeIdsFrom (i + 1) rest

/-- `TryFrom<BatchEpisodeIdsWithSize> for BatchEpisodeIds`
(`batch_inference.rs:596-634`).  `fresh` supplies the successive results
of `Uuid::now_v7()`; the `None` arm is Rust's `vec![Uuid::now_v7(); n]`,
which mints once and clones the minted id n times. -/
def BatchEpisodeIdsWithSize.tryInto
    (episode_ids : Option (List (Option UuidV7))) (num_inferences : Nat)
    (fresh : Nat → UuidV7) : Except ErrorDetails (List UuidV7) :=
  let filled : Except ErrorDetails (List UuidV7) :=
    match episode_ids with
    | some episode_ids =>
      if episode_ids.length ≠ num_inferences then
        .error (.invalidRequest
          ("Number of episode_ids (" ++ toString episode_ids.length ++
            ") does not match number of inputs (" ++
            toString num_inferences ++ ")"))
      else .ok (fillEpisodeIds fresh 0 episode_ids)
    | none => .ok (List.replicate num_inferences (fresh 0))
  match filled with
  | .error e => .error e
  | .ok ids =>
    match validateEpisodeIdsFrom 0 ids with
    | .error e => .error e
    | .ok () => .ok ids

/-- Modelled from the spec: the cumulative-weight window walk inside
`sample_variant` (`function.rs`, not under src/).  With `u` already reduced
modulo the total weight, pick the first candidate whose cumulative weight
window contains `u`; the chosen name is removed from the candidate list
(the source passes the candidate vector by `&mut` and removes the sampled
variant). -/
def chooseVariant (weight : String → Nat) :
    Nat → List String → Option (String × List String)
  | _, [] => none
  | u, c :: cs =>
    if u < weight c then some (c, cs)
    else (chooseVariant weight (u - weight c) cs).map
      (fun p => (p.1, c :: p.2))

/-- Modelled from the spec: `sample_variant` (`function.rs`, not under
src/): draw `u = hash(episode_id, function_name) mod Σw` and pick the
variant whose cumulative weight window contains `u`, removing it from the
candidates; an empty or zero-total-weight candidate set is an error. -/
def sample_variant (weight : String → Nat)
    (hash : UuidV7 → String → Nat) (function_name : String)
    (episode_id : UuidV7) (candidates : List String) :
    Except ErrorDetails (String × List String) :=
  let total := (candidates.map weight).sum
  if total = 0 then
    .error (.invalidFunctionVariants
      ("Function `" ++ function_name ++ "` has no variants to sample"))
  else
    match chooseVariant weight
        (hash episode_id function_name % total) candidates with
    | none =>
      .error (.invalidFunctionVariants
        ("Function `" ++ function_name ++ "` has no variants to sample"))
    | some (variant_name, rest) => .ok (variant_name, rest)

/-- The `while !candidate_variant_names.is_empty()` loop of
`start_batch_inference_handler` (`batch_inference.rs:213-279`): sample a
variant (removing it from the candidates), run `start_batch_inference` for
the whole batch on it; on failure record the error under the variant's
name and continue; when the candidates are exhausted return
`AllVariantsFailed` with the collected per-variant errors.  `startBatch`
abstracts `variant.start_batch_inference(..)` and `σ` its success
payload. -/
def batchVariantLoop (σ : Type) (weight : String → Nat)
    (hash : UuidV7 → String → Nat) (function_name : String)
    (first_episode_id : UuidV7)
    (startBatch : String → Except ErrorDetails σ) :
    List String → List (String × ErrorDetails) →
      Except ErrorDetails (String × σ)
  | [], variant_errors => .error (.allVariantsFailed variant_errors)
  | c :: cs, variant_errors =>
    match h : sample_variant weight hash function_name first_episode_id
        (c :: cs) with
    | .error e => .error e
    | .ok (variant_name, rest) =>
      match startBatch variant_name with
      | .ok s => .ok (variant_name, s)
      | .error e =>
        batchVariantLoop σ weight hash function_name first_episode_id
          startBatch rest (variant_errors ++ [(variant_name, e)])
  termination_by cands _ => cands.length
  decreasing_by
    have hlen : ∀ (u : Nat) (l : List String) (nm : String)
        (r : List String), chooseVariant weight u l = some (nm, r) →
        r.length + 1 = l.length := by
      intro u l
      induction l generalizing u with
      | nil => intro nm r hch; simp [chooseVariant] at hch
      | cons a t ih =>
        intro nm r hch
        rw [chooseVariant] at hch
        by_cases hua : u < weight a
        · rw [if_pos hua] at hch
          simp only [Option.some.injEq, Prod.mk.injEq] at hch
          rw [← hch.2]
          simp
        · rw [if_neg hua] at hch
          rcases hcc : chooseVariant weight (u - weight a) t with _ | q
          · rw [hcc] at hch; simp at hch
          · rw [hcc] at hch
            obtain ⟨q1, q2⟩ := q
            simp only [Option.map_some', Option.some.injEq,
              Prod.mk.injEq] at hch
            have h2 := ih (u - weight a) q1 q2 hcc
            rw [← hch.2]
            simp only [List.length_cons]
            omega
    simp only [sample_variant] at h
    by_cases htot : (((c :: cs).map weight).sum = 0)
    · rw [if_pos htot] at h; exact absurd h (by simp)
    · rw [if_neg htot] at h
      rcases hch : chooseVariant weight
          (hash first_episode_id function_name % ((c :: cs).map weight).sum)
          (c :: cs) with _ | p
      · rw [hch] at h; exact absurd h (by simp)
      · rw [hch] at h
        obtain ⟨p1, p2⟩ := p
        simp only [Except.ok.injEq, Prod.mk.injEq] at h
        have h2 := hlen _ _ _ _ hch
        have h3 : p2 = rest := h.2
        subst h3
        simp only [List.length_cons] at h2 ⊢
        omega

/-- The episode-id/candidate part of `start_batch_inference_handler`
(`batch_inference.rs:205-279`): take the first episode id (erroring on an
empty list) and run the variant loop keyed on it with an empty error
map. -/
def startBatchSampling (σ : Type) (weight : String → Nat)
    (hash : UuidV7 → String → Nat) (function_name : String)
    (startBatch : String → Except ErrorDetails σ)
    (episode_ids : List UuidV7) (candidates : List String) :
    Except ErrorDetails (String × σ) :=
  match episode_ids.head? with
  | none => .error (.inference
      "batch episode_ids unexpectedly empty. This should never happen. Please file a bug report: https://github.com/tensorzero/tensorzero/issues/new")
  | some first_episode_id =>
    batchVariantLoop σ weight hash function_name first_episode_id
      startBatch candidates []

/-- C1: the claim says a GET /batch_inference poll translates the stored
batch status into `{status: "pending" | "completed" | "failed"}`; in the
source every arm of the status match in `poll_batch_inference_handler` is
`todo!()`, so the handler panics for every status (in particular for a
batch polled right after a successful submit, whose stored status is
Pending) and never produces a `PollInferenceResponse`. -/
theorem poll_batch_inference_all_arms_todo :
    poll_batch_inference_handler_match .pending = .panicked "not yet implemented"
    ∧ (∀ s : BatchStatus,
        (poll_batch_inference_handler_match s).isUnimplemented = true)
    ∧ (∀ s : BatchStatus, ∀ failedMessage : String,
        (poll_batch_inference_handler_match s).isUnimplemented = true
        ∧ (PollHandlerOutcome.response (specPollResponse failedMessage s)).isUnimplemented
            = false) := by
  refine ⟨rfl, ?_, ?_⟩
  · intro s; cases s <;> rfl
  · intro s failedMessage; exact ⟨by cases s <;> rfl, rfl⟩

/-- C7: `handle_gcp_vertex_gemini_error` partitions non-2xx statuses
exactly: 401, 400, 413 and 429 yield a client error carrying the status
code and the response body, and every other non-success status yields a
server error carrying the body. -/
theorem gcp_error_status_partition (code : Nat) (body : String)
    (hns : ¬ (200 ≤ code ∧ code ≤ 299)) :
    (handle_gcp_vertex_gemini_error code body = .gcpVertexClient body code
      ↔ (code = 401 ∨ code = 400 ∨ code = 413 ∨ code = 429))
    ∧ (handle_gcp_vertex_gemini_error code body = .gcpVertexServer body
      ↔ ¬ (code = 401 ∨ code = 400 ∨ code = 413 ∨ code = 429)) := by
  unfold handle_gcp_vertex_gemini_error
  by_cases h : code = 401 ∨ code = 400 ∨ code = 413 ∨ code = 429
  · simp [h]
  · simp [h]

/-- C7 witness: status 429 is classified as a client error carrying status
and body, and status 500 as a server error carrying the body. -/
theorem gcp_error_status_partition_witness :
    handle_gcp_vertex_gemini_error 429 "too many requests" =
      .gcpVertexClient "too many requests" 429
    ∧ handle_gcp_vertex_gemini_error 500 "internal" = .gcpVertexServer "internal" := by
  constructor
  · exact ((gcp_error_status_partition 429 "too many requests" (by decide)).1).2
      (by decide)
  · exact ((gcp_error_status_partition 500 "internal" (by decide)).2).2 (by decide)

/-- Converting a non-`System` message always succeeds. -/
theorem tryFrom_ok_of_not_system (m : InferenceRequestMessage)
    (h : m.isSystem = false) :
    ∃ c, GCPVertexGeminiContent.tryFrom m = .ok c := by
  cases m with
  | system content => simp [InferenceRequestMessage.isSystem] at h
  | user content => exact ⟨_, rfl⟩
  | assistant content tool_calls => exact ⟨_, rfl⟩
  | tool tool_call_id content => exact ⟨_, rfl⟩

/-- Collecting the per-message conversions succeeds when no message is a
`System` message, and the output converts the inputs pointwise in order. -/
theorem mapM_content_ok_of_no_system (l : List InferenceRequestMessage)
    (h : ∀ m ∈ l, m.isSystem = false) :
    ∃ out, l.mapM GCPVertexGeminiContent.tryFrom = .ok out ∧
      List.Forall₂ (fun m c => GCPVertexGeminiContent.tryFrom m = .ok c) l out := by
  induction l with
  | nil => exact ⟨[], rfl, List.Forall₂.nil⟩
  | cons a t ih =>
    obtain ⟨c, hc⟩ := tryFrom_ok_of_not_system a (h a (by simp))
    obtain ⟨out, hout, hfa⟩ := ih (fun m hm => h m (by simp [hm]))
    refine ⟨c :: out, ?_, List.Forall₂.cons hc hfa⟩
    rw [List.mapM_cons, hc, hout]
    rfl

/-- Collecting the per-message conversions fails with `InvalidMessage` as
soon as the message list contains a `System` message. -/
theorem mapM_content_error_of_system (l : List InferenceRequestMessage)
    (h : ∃ m ∈ l, m.isSystem = true) :
    l.mapM GCPVertexGeminiContent.tryFrom =
      .error (.invalidMessage geminiSystemMessageError) := by
  induction l with
  | nil => simp at h
  | cons a t ih =>
    by_cases ha : a.isSystem = true
    · cases a with
      | system content => rw [List.mapM_cons]; rfl
      | user content => simp [InferenceRequestMessage.isSystem] at ha
      | assistant content tool_calls => simp [InferenceRequestMessage.isSystem] at ha
      | tool tool_call_id content => simp [InferenceRequestMessage.isSystem] at ha
    · obtain ⟨m, hm, hms⟩ := h
      rcases List.mem_cons.mp hm with rfl | hmt
      · exact absurd hms ha
      · obtain ⟨c, hc⟩ := tryFrom_ok_of_not_system a (by simpa using ha)
        rw [List.mapM_cons, hc, ih ⟨m, hmt, hms⟩]
        rfl

/-- Unfolding equation for `GCPVertexGeminiRequest.tryFrom` on a nonempty
message list given as a record literal. -/
theorem tryFrom_cons (first : InferenceRequestMessage)
    (tail : List InferenceRequestMessage) (ta : Option (List Tool))
    (tcv : Option ToolChoice) (ptc : Option Bool) (temp : Option F32)
    (mt : Option Nat) (st jm : Bool) (ft : FunctionType)
    (os : Option JsonValue) :
    GCPVertexGeminiRequest.tryFrom
        ⟨first :: tail, ta, tcv, ptc, temp, mt, st, jm, ft, os⟩ =
      match (geminiSplitSystem (first :: tail)).2.mapM
          GCPVertexGeminiContent.tryFrom with
      | .error e => .error e
      | .ok contents =>
        .ok { contents := contents
              tools := ta.map (fun tools => [GCPVertexGeminiTool.from tools])
              tool_config := tcv.map GCPVertexGeminiToolConfig.from
              generation_config := some
                { stop_sequences := none
                  temperature := temp
                  max_output_tokens := mt
                  response_mime_type := (geminiMimeSchema os).1
                  response_schema := (geminiMimeSchema os).2 }
              system_instruction := (geminiSplitSystem (first :: tail)).1 } :=
  rfl

/-- C2 counterexample: a request with `json_mode = true` but no
`output_schema` converts successfully and its generation config has
`response_mime_type = None` and `response_schema = None`, contradicting the
claim that `json_mode` alone sets `responseMimeType=application/json`
(`gcp_vertex.rs:495-501` only inspects `output_schema`). -/
theorem gemini_json_mode_alone_sets_nothing :
    GCPVertexGeminiRequest.tryFrom
      { messages := [.user "test_user"], tools_available := none,
        tool_choice := none, parallel_tool_calls := none, temperature := none,
        max_tokens := none, stream := false, json_mode := true,
        function_type := .chat, output_schema := none }
    = .ok { contents := [⟨.user, [.text "test_user"]⟩], tools := none,
            tool_config := none,
            generation_config := some ⟨none, none, none, none, none⟩,
            system_instruction := none } := by
  rfl

/-- C2 (amended): for every successfully converted request, the generation
config sets `response_mime_type = application/json` and `response_schema`
to the output schema exactly when `output_schema` is present; otherwise
both are `None` — regardless of `json_mode`. -/
theorem gemini_generation_config_from_output_schema
    (req : ModelInferenceRequest) (g : GCPVertexGeminiRequest)
    (h : GCPVertexGeminiRequest.tryFrom req = .ok g) :
    g.generation_config = some
      { stop_sequences := none
        temperature := req.temperature
        max_output_tokens := req.max_tokens
        response_mime_type := req.output_schema.map (fun _ => .applicationJson)
        response_schema := req.output_schema } := by
  obtain ⟨msgs, ta, tcv, ptc, temp, mt, st, jm, ft, os⟩ := req
  cases msgs with
  | nil => exact absurd h (by simp [GCPVertexGeminiRequest.tryFrom])
  | cons first tail =>
    rw [tryFrom_cons] at h
    rcases hmap : (geminiSplitSystem (first :: tail)).2.mapM
        GCPVertexGeminiContent.tryFrom with e | contents <;> rw [hmap] at h
    · simp at h
    · simp at h
      subst h
      cases os <;> rfl

/-- C2 witness: a concrete request with an output schema present yields
`response_mime_type = application/json` and `response_schema` equal to that
schema. -/
theorem gemini_generation_config_from_output_schema_witness :
    (GCPVertexGeminiRequest.tryFrom
      { messages := [.user "hi"], tools_available := none,
        tool_choice := none, parallel_tool_calls := none, temperature := none,
        max_tokens := none, stream := false, json_mode := false,
        function_type := .json,
        output_schema := some ⟨"\x7btype: object\x7d"⟩ }
      = .ok { contents := [⟨.user, [.text "hi"]⟩], tools := none,
              tool_config := none,
              generation_config := some ⟨none, none, none,
                some .applicationJson, some ⟨"\x7btype: object\x7d"⟩⟩,
              system_instruction := none })
    ∧ (some ⟨none, none, none, some .applicationJson,
          some (⟨"\x7btype: object\x7d"⟩ : JsonValue)⟩ : Option GCPVertexGeminiGenerationConfig)
      = some
        { stop_sequences := none
          temperature := none
          max_output_tokens := none
          response_mime_type := (some (⟨"\x7btype: object\x7d"⟩ : JsonValue)).map
            (fun _ => .applicationJson)
          response_schema := some ⟨"\x7btype: object\x7d"⟩ } := by
  constructor
  · rfl
  · exact gemini_generation_config_from_output_schema
      { messages := [.user "hi"], tools_available := none,
        tool_choice := none, parallel_tool_calls := none, temperature := none,
        max_tokens := none, stream := false, json_mode := false,
        function_type := .json,
        output_schema := some ⟨"\x7btype: object\x7d"⟩ }
      { contents := [⟨.user, [.text "hi"]⟩], tools := none,
        tool_config := none,
        generation_config := some ⟨none, none, none,
          some .applicationJson, some ⟨"\x7btype: object\x7d"⟩⟩,
        system_instruction := none }
      (by rfl)

/-- C5: a `System` message at index 0 becomes the request's
`system_instruction` and is not replicated into `contents` (which converts
exactly the remaining messages, in order), while any `System` message at an
index greater than 0 makes the conversion fail with `InvalidMessage`. -/
theorem gemini_system_message_placement (req : ModelInferenceRequest) :
    (∀ content tail, req.messages = .system content :: tail →
      (∀ m ∈ tail, m.isSystem = false) →
      ∃ g, GCPVertexGeminiRequest.tryFrom req = .ok g
        ∧ g.system_instruction = some ⟨.model, [.text content]⟩
        ∧ List.Forall₂ (fun m c => GCPVertexGeminiContent.tryFrom m = .ok c)
            tail g.contents)
    ∧ (∀ i, 0 < i → ∀ content, req.messages[i]? = some (.system content) →
        GCPVertexGeminiRequest.tryFrom req =
          .error (.invalidMessage geminiSystemMessageError)) := by
  obtain ⟨msgs, ta, tcv, ptc, temp, mt, st, jm, ft, os⟩ := req
  constructor
  · intro content tail hm hns
    obtain ⟨out, hout, hfa⟩ := mapM_content_ok_of_no_system tail hns
    have hm' : msgs = .system content :: tail := hm
    subst hm'
    refine ⟨⟨out, ta.map (fun tools => [GCPVertexGeminiTool.from tools]),
            tcv.map GCPVertexGeminiToolConfig.from,
            some ⟨none, temp, mt, (geminiMimeSchema os).1,
              (geminiMimeSchema os).2⟩,
            some ⟨.model, [.text content]⟩⟩, ?_, rfl, hfa⟩
    rw [tryFrom_cons]
    have hsp : geminiSplitSystem (.system content :: tail) =
        (some (⟨.model, [.text content]⟩ : GCPVertexGeminiContent), tail) := rfl
    rw [hsp]
    dsimp only
    rw [hout]
  · intro i hi content hic
    have hic' : msgs[i]? = some (.system content) := hic
    cases msgs with
    | nil => simp at hic'
    | cons first tail =>
      obtain ⟨j, rfl⟩ : ∃ j, i = j + 1 := ⟨i - 1, by omega⟩
      have htail : tail[j]? = some (.system content) := by
        simpa using hic'
      have hmem : (InferenceRequestMessage.system content) ∈ tail :=
        List.getElem?_mem htail
      have hsys : ∃ m ∈ tail, m.isSystem = true :=
        ⟨.system content, hmem, rfl⟩
      show GCPVertexGeminiRequest.tryFrom
          ⟨first :: tail, ta, tcv, ptc, temp, mt, st, jm, ft, os⟩ = _
      rw [tryFrom_cons]
      cases first with
      | system c0 =>
        have hsp : geminiSplitSystem (.system c0 :: tail) =
            (some (⟨.model, [.text c0]⟩ : GCPVertexGeminiContent), tail) := rfl
        rw [hsp]
        dsimp only
        rw [mapM_content_error_of_system tail hsys]
      | user c0 =>
        have hsp : geminiSplitSystem (.user c0 :: tail) =
            (none, .user c0 :: tail) := rfl
        rw [hsp]
        dsimp only
        rw [mapM_content_error_of_system (.user c0 :: tail)
          ⟨.system content, by simp [hmem], rfl⟩]
      | assistant c0 tc0 =>
        have hsp : geminiSplitSystem (.assistant c0 tc0 :: tail) =
            (none, .assistant c0 tc0 :: tail) := rfl
        rw [hsp]
        dsimp only
        rw [mapM_content_error_of_system (.assistant c0 tc0 :: tail)
          ⟨.system content, by simp [hmem], rfl⟩]
      | tool id0 c0 =>
        have hsp : geminiSplitSystem (.tool id0 c0 :: tail) =
            (none, .tool id0 c0 :: tail) := rfl
        rw [hsp]
        dsimp only
        rw [mapM_content_error_of_system (.tool id0 c0 :: tail)
          ⟨.system content, by simp [hmem], rfl⟩]

/-- C5 witness: a leading `System` message becomes the system instruction
of a concrete request, and an embedded `System` message (index 1) makes a
concrete conversion fail with `InvalidMessage`. -/
theorem gemini_system_message_placement_witness :
    (∃ g, GCPVertexGeminiRequest.tryFrom
        { messages := [.system "sys", .user "hi"], tools_available := none,
          tool_choice := none, parallel_tool_calls := none, temperature := none,
          max_tokens := none, stream := false, json_mode := false,
          function_type := .chat, output_schema := none }
        = .ok g
      ∧ g.system_instruction = some ⟨.model, [.text "sys"]⟩
      ∧ List.Forall₂ (fun m c => GCPVertexGeminiContent.tryFrom m = .ok c)
          [.user "hi"] g.contents)
    ∧ GCPVertexGeminiRequest.tryFrom
        { messages := [.user "hi", .system "oops"], tools_available := none,
          tool_choice := none, parallel_tool_calls := none, temperature := none,
          max_tokens := none, stream := false, json_mode := false,
          function_type := .chat, output_schema := none }
      = .error (.invalidMessage geminiSystemMessageError) := by
  constructor
  · exact (gemini_system_message_placement
      { messages := [.system "sys", .user "hi"], tools_available := none,
        tool_choice := none, parallel_tool_calls := none, temperature := none,
        max_tokens := none, stream := false, json_mode := false,
        function_type := .chat, output_schema := none }).1
      "sys" [.user "hi"] rfl (by intro m hm; simp at hm; subst hm; rfl)
  · exact (gemini_system_message_placement
      { messages := [.user "hi", .system "oops"], tools_available := none,
        tool_choice := none, parallel_tool_calls := none, temperature := none,
        max_tokens := none, stream := false, json_mode := false,
        function_type := .chat, output_schema := none }).2
      1 (by decide) "oops" rfl

/-- Gluing a newline-joined head into a newline join. -/
theorem joinNewline_glue (m t : String) (l : List String) :
    joinNewline ((m ++ "\n" ++ t) :: l) = m ++ "\n" ++ joinNewline (t :: l) := by
  cases l with
  | nil => rfl
  | cons x xs => simp [joinNewline, String.append_assoc]

/-- The unary part loop computes exactly the spec's content (text parts
joined by single newlines) and the spec's tool calls (`id = name`, in part
order), relative to any starting accumulators. -/
theorem gcpPartsLoop_eq (parts : List GCPVertexGeminiResponseContentPart) :
    ∀ mt tc, gcpPartsLoop mt tc parts =
      (specGeminiContentAcc mt parts, specGeminiCallsAcc tc parts) := by
  induction parts with
  | nil =>
    intro mt tc
    cases mt <;> cases tc <;>
      simp [gcpPartsLoop, specGeminiContentAcc, specGeminiCallsAcc,
        specGeminiContent, specGeminiTexts, specGeminiToolCalls,
        specGeminiToolCallsOpt, joinNewline]
  | cons p rest ih =>
    intro mt tc
    cases p with
    | text t =>
      have h1 : gcpPartsLoop mt tc (.text t :: rest) =
          gcpPartsLoop (match mt with
            | some message => some (message ++ "\n" ++ t)
            | none => some t) tc rest := rfl
      rw [h1, ih]
      simp only [Prod.mk.injEq]
      constructor
      · cases mt <;>
          simp [specGeminiContentAcc, specGeminiContent, specGeminiTexts,
            joinNewline_glue, joinNewline]
      · cases tc <;>
          simp [specGeminiCallsAcc, specGeminiToolCalls,
            specGeminiToolCallsOpt]
    | functionCall fc =>
      have h1 : gcpPartsLoop mt tc (.functionCall fc :: rest) =
          gcpPartsLoop mt (match tc with
            | some calls => some (calls ++ [⟨fc.name, fc.name, fc.args⟩])
            | none => some [⟨fc.name, fc.name, fc.args⟩]) rest := rfl
      rw [h1, ih]
      simp only [Prod.mk.injEq]
      constructor
      · cases mt <;>
          simp [specGeminiContentAcc, specGeminiContent, specGeminiTexts]
      · cases tc <;>
          simp [specGeminiCallsAcc, specGeminiToolCalls,
            specGeminiToolCallsOpt]

/-- C6: for every unary Gemini response, only the first candidate is used
(no candidate at all fails the conversion); on success the content is the
candidate's text parts concatenated in order with single newlines, the
tool calls are its `functionCall` parts in order with `id = name`, and a
missing `usage_metadata` fails the conversion with a server error. -/
theorem gemini_unary_response_shape (body : GCPVertexGeminiResponse)
    (latency : Latency) :
    (body.candidates = [] →
      ModelInferenceResponse.tryFromGemini body latency =
        .error (.gcpVertexServer "GCP Vertex Gemini response has no candidates"))
    ∧ (∀ c rest content, body.candidates = c :: rest → c.content = some content →
        (∀ u, body.usage_metadata = some u →
          ModelInferenceResponse.tryFromGemini body latency =
            .ok ⟨specGeminiContent content.parts,
                 specGeminiToolCallsOpt content.parts,
                 Usage.fromMetadata u, latency⟩)
        ∧ (body.usage_metadata = none →
            ModelInferenceResponse.tryFromGemini body latency =
              .error (.gcpVertexServer
                "GCP Vertex Gemini non-streaming response has no usage metadata")))
    ∧ (∀ c rest, body.candidates = c :: rest →
        ModelInferenceResponse.tryFromGemini body latency =
          ModelInferenceResponse.tryFromGemini ⟨[c], body.usage_metadata⟩
            latency) := by
  obtain ⟨cands, um⟩ := body
  refine ⟨?_, ?_, ?_⟩
  · intro h
    have h' : cands = [] := h
    subst h'
    rfl
  · intro c rest content hc hcc
    have hc' : cands = c :: rest := hc
    subst hc'
    obtain ⟨oc⟩ := c
    have hcc' : oc = some content := hcc
    subst hcc'
    constructor
    · intro u hu
      have hu' : um = some u := hu
      subst hu'
      simp [ModelInferenceResponse.tryFromGemini, gcpPartsLoop_eq,
        specGeminiContentAcc, specGeminiCallsAcc]
    · intro hu
      have hu' : um = none := hu
      subst hu'
      rfl
  · intro c rest hc
    have hc' : cands = c :: rest := hc
    subst hc'
    rfl

/-- C6 witness: a concrete response with parts
`[text "a", functionCall get_weather, text "b"]` and usage `(15, 20)`
normalizes to content `"a\nb"` and one tool call whose id equals its
name. -/
theorem gemini_unary_response_shape_witness :
    ModelInferenceResponse.tryFromGemini
      ⟨[⟨some ⟨[.text "a", .functionCall ⟨"get_weather", "\x7b\x7d"⟩,
          .text "b"]⟩⟩], some ⟨15, 20⟩⟩ (.nonStreaming 1000)
    = .ok ⟨some "a\nb", some [⟨"get_weather", "get_weather", "\x7b\x7d"⟩],
        ⟨15, 20⟩, .nonStreaming 1000⟩ := by
  have h := ((gemini_unary_response_shape
      ⟨[⟨some ⟨[.text "a", .functionCall ⟨"get_weather", "\x7b\x7d"⟩,
          .text "b"]⟩⟩], some ⟨15, 20⟩⟩ (.nonStreaming 1000)).2.1
      _ _ _ rfl rfl).1 ⟨15, 20⟩ rfl
  exact h.trans (by rfl)

/-- C10: a Gemini body whose first candidate has no `content` makes the
unary conversion fail with the server error
"GCP Vertex Gemini response has no content", while the streaming chunk
conversion of the same body succeeds with no text content and no tool
calls. -/
theorem gemini_missing_content_unary_vs_stream (body : GCPVertexGeminiResponse)
    (latency : Latency) (chunkLatency : Nat) (inference_id : UuidV7)
    (c : GCPVertexGeminiResponseCandidate)
    (rest : List GCPVertexGeminiResponseCandidate)
    (hc : body.candidates = c :: rest) (hcc : c.content = none) :
    ModelInferenceResponse.tryFromGemini body latency =
      .error (.gcpVertexServer "GCP Vertex Gemini response has no content")
    ∧ ModelInferenceResponseChunk.tryFromGemini body chunkLatency inference_id =
      .ok ⟨inference_id, none, none,
        body.usage_metadata.map Usage.fromMetadata, chunkLatency⟩ := by
  obtain ⟨cands, um⟩ := body
  have hc' : cands = c :: rest := hc
  subst hc'
  obtain ⟨oc⟩ := c
  have hcc' : oc = none := hcc
  subst hcc'
  exact ⟨rfl, rfl⟩

/-- C10 witness: at the concrete body `{candidates: [{}], usage: none}`
the unary conversion errors while the chunk conversion yields an empty
chunk. -/
theorem gemini_missing_content_unary_vs_stream_witness :
    ModelInferenceResponse.tryFromGemini ⟨[⟨none⟩], none⟩ (.nonStreaming 7) =
      .error (.gcpVertexServer "GCP Vertex Gemini response has no content")
    ∧ ModelInferenceResponseChunk.tryFromGemini ⟨[⟨none⟩], none⟩ 3 ⟨1700000000000, 42⟩ =
      .ok ⟨⟨1700000000000, 42⟩, none, none, none, 3⟩ :=
  gemini_missing_content_unary_vs_stream ⟨[⟨none⟩], none⟩ (.nonStreaming 7) 3
    ⟨1700000000000, 42⟩ ⟨none⟩ [] rfl rfl

/-- A length check passes when the array is absent or has the right
length. -/
theorem checkVecLen_ok {α : Type} (field : String) (v : Option (List α))
    (n : Nat) (h : ∀ arr, v = some arr → arr.length = n) :
    checkVecLen field v n = .ok () := by
  cases v with
  | none => rfl
  | some arr => simp [checkVecLen, h arr rfl]

/-- A length check fails with the field's message when the provided array
has the wrong length. -/
theorem checkVecLen_bad {α : Type} (field : String) (arr : List α) (n : Nat)
    (h : arr.length ≠ n) :
    checkVecLen field (some arr) n =
      .error (.invalidRequest (vecLenMsg field arr.length n)) := by
  simp [checkVecLen, h]

/-- `iter.next().unwrap_or(None)` on a fresh iterator is `getD 0 none`. -/
theorem head_join_eq_getD {α : Type} (l : List (Option α)) :
    l.head?.join = l.getD 0 none := by
  cases l <;> simp [List.getD]

/-- Advancing an iterator shifts `getD` indices by one. -/
theorem tail_getD {α : Type} (l : List α) (d : α) (i : Nat) :
    l.tail.getD i d = l.getD (i + 1) d := by
  cases l <;> simp [List.getD]

/-- Entry `i` of the built parameter list takes entry `i` of each provided
array (and `None` where the array is absent or exhausted). -/
theorem buildChatParams_getElem :
    ∀ (n : Nat) (ts : List (Option F32)) (ms ss : List (Option Nat))
      (ps pps fps : List (Option F32)) (i : Nat), i < n →
      (buildChatParams ts ms ss ps pps fps n)[i]? =
        some ⟨ts.getD i none, ms.getD i none, ss.getD i none, ps.getD i none,
          pps.getD i none, fps.getD i none⟩ := by
  intro n
  induction n with
  | zero => intro ts ms ss ps pps fps i hi; omega
  | succ n ih =>
    intro ts ms ss ps pps fps i hi
    cases i with
    | zero =>
      have hz : (buildChatParams ts ms ss ps pps fps (n + 1))[0]? =
          some ⟨ts.head?.join, ms.head?.join, ss.head?.join, ps.head?.join,
            pps.head?.join, fps.head?.join⟩ := by simp [buildChatParams]
      rw [hz, head_join_eq_getD ts, head_join_eq_getD ms, head_join_eq_getD ss,
        head_join_eq_getD ps, head_join_eq_getD pps, head_join_eq_getD fps]
    | succ j =>
      have hstep : (buildChatParams ts ms ss ps pps fps (n + 1))[j + 1]? =
          (buildChatParams ts.tail ms.tail ss.tail ps.tail pps.tail fps.tail
            n)[j]? := by
        simp [buildChatParams]
      rw [hstep, ih ts.tail ms.tail ss.tail ps.tail pps.tail fps.tail j
        (by omega)]
      simp [tail_getD]

/-- C3: every provided parallel array (temperature, max_tokens, seed,
top_p, presence_penalty, frequency_penalty, output_schemas) must have
length `n`: a mismatch fails with `InvalidRequest` naming the field and
both lengths (a mismatched temperature array reports its message
directly), while matching lengths succeed and entry `i` of each provided
array becomes the per-inference parameter at index `i` (absent arrays give
`None` everywhere). -/
theorem batch_param_vector_lengths (p : BatchChatCompletionInferenceParams)
    (os : Option (List (Option JsonValue))) (n : Nat) :
    ((∀ f : BatchParamField, ∀ len, f.len p = some len → len = n) →
      BatchChatCompletionParamsWithSize.tryInto p n =
        .ok (buildChatParams (p.temperature.getD []) (p.max_tokens.getD [])
          (p.seed.getD []) (p.top_p.getD []) (p.presence_penalty.getD [])
          (p.frequency_penalty.getD []) n)
      ∧ ∀ i, i < n →
        (buildChatParams (p.temperature.getD []) (p.max_tokens.getD [])
          (p.seed.getD []) (p.top_p.getD []) (p.presence_penalty.getD [])
          (p.frequency_penalty.getD []) n)[i]? =
          some ⟨(p.temperature.getD []).getD i none,
            (p.max_tokens.getD []).getD i none,
            (p.seed.getD []).getD i none,
            (p.top_p.getD []).getD i none,
            (p.presence_penalty.getD []).getD i none,
            (p.frequency_penalty.getD []).getD i none⟩)
    ∧ (∀ arr, p.temperature = some arr → arr.length ≠ n →
        BatchChatCompletionParamsWithSize.tryInto p n =
          .error (.invalidRequest (vecLenMsg "temperature" arr.length n)))
    ∧ ((∃ f : BatchParamField, ∃ len, f.len p = some len ∧ len ≠ n) →
        ∃ f : BatchParamField, ∃ len, f.len p = some len ∧ len ≠ n ∧
          BatchChatCompletionParamsWithSize.tryInto p n =
            .error (.invalidRequest (vecLenMsg f.name len n)))
    ∧ (∀ arr, os = some arr → arr.length ≠ n →
        BatchOutputSchemasWithSize.tryInto os n =
          .error (.invalidRequest (vecLenMsg "output_schemas" arr.length n)))
    ∧ (∀ arr, os = some arr → arr.length = n →
        BatchOutputSchemasWithSize.tryInto os n =
          .ok (arr.map (fun schema => schema.map DynamicJSONSchema.mk)))
    ∧ (os = none →
        BatchOutputSchemasWithSize.tryInto os n =
          .ok (List.replicate n none)) := by
  refine ⟨?_, ?_, ?_, ?_, ?_, ?_⟩
  · intro hall
    have h1 : checkVecLen "temperature" p.temperature n = .ok () := by
      apply checkVecLen_ok; intro arr ha
      exact hall .temperature arr.length (by simp [BatchParamField.len, ha])
    have h2 : checkVecLen "max_tokens" p.max_tokens n = .ok () := by
      apply checkVecLen_ok; intro arr ha
      exact hall .max_tokens arr.length (by simp [BatchParamField.len, ha])
    have h3 : checkVecLen "seed" p.seed n = .ok () := by
      apply checkVecLen_ok; intro arr ha
      exact hall .seed arr.length (by simp [BatchParamField.len, ha])
    have h4 : checkVecLen "top_p" p.top_p n = .ok () := by
      apply checkVecLen_ok; intro arr ha
      exact hall .top_p arr.length (by simp [BatchParamField.len, ha])
    have h5 : checkVecLen "presence_penalty" p.presence_penalty n = .ok () := by
      apply checkVecLen_ok; intro arr ha
      exact hall .presence_penalty arr.length (by simp [BatchParamField.len, ha])
    have h6 : checkVecLen "frequency_penalty" p.frequency_penalty n = .ok () := by
      apply checkVecLen_ok; intro arr ha
      exact hall .frequency_penalty arr.length (by simp [BatchParamField.len, ha])
    refine ⟨?_, ?_⟩
    · simp [BatchChatCompletionParamsWithSize.tryInto, h1, h2, h3, h4, h5, h6,
        Bind.bind, Except.bind, pure, Except.pure]
    · intro i hi
      exact buildChatParams_getElem n _ _ _ _ _ _ i hi
  · intro arr ha hl
    simp [BatchChatCompletionParamsWithSize.tryInto, ha,
      checkVecLen_bad "temperature" arr n hl, Bind.bind, Except.bind]
  · intro hex
    by_cases hb1 : ∃ arr, p.temperature = some arr ∧ arr.length ≠ n
    · obtain ⟨arr, ha, hl⟩ := hb1
      exact ⟨.temperature, arr.length, by simp [BatchParamField.len, ha], hl,
        by simp [BatchChatCompletionParamsWithSize.tryInto, ha,
          checkVecLen_bad "temperature" arr n hl, Bind.bind, Except.bind,
          BatchParamField.name]⟩
    · have h1 : checkVecLen "temperature" p.temperature n = .ok () := by
        apply checkVecLen_ok; intro arr ha
        by_contra hne; exact hb1 ⟨arr, ha, hne⟩
      by_cases hb2 : ∃ arr, p.max_tokens = some arr ∧ arr.length ≠ n
      · obtain ⟨arr, ha, hl⟩ := hb2
        exact ⟨.max_tokens, arr.length, by simp [BatchParamField.len, ha], hl,
          by simp [BatchChatCompletionParamsWithSize.tryInto, h1, ha,
            checkVecLen_bad "max_tokens" arr n hl, Bind.bind, Except.bind,
            BatchParamField.name]⟩
      · have h2 : checkVecLen "max_tokens" p.max_tokens n = .ok () := by
          apply checkVecLen_ok; intro arr ha
          by_contra hne; exact hb2 ⟨arr, ha, hne⟩
        by_cases hb3 : ∃ arr, p.seed = some arr ∧ arr.length ≠ n
        · obtain ⟨arr, ha, hl⟩ := hb3
          exact ⟨.seed, arr.length, by simp [BatchParamField.len, ha], hl,
            by simp [BatchChatCompletionParamsWithSize.tryInto, h1, h2, ha,
              checkVecLen_bad "seed" arr n hl, Bind.bind, Except.bind,
              BatchParamField.name]⟩
        · have h3 : checkVecLen "seed" p.seed n = .ok () := by
            apply checkVecLen_ok; intro arr ha
            by_contra hne; exact hb3 ⟨arr, ha, hne⟩
          by_cases hb4 : ∃ arr, p.top_p = some arr ∧ arr.length ≠ n
          · obtain ⟨arr, ha, hl⟩ := hb4
            exact ⟨.top_p, arr.length, by simp [BatchParamField.len, ha], hl,
              by simp [BatchChatCompletionParamsWithSize.tryInto, h1, h2, h3,
                ha, checkVecLen_bad "top_p" arr n hl, Bind.bind, Except.bind,
                BatchParamField.name]⟩
          · have h4 : checkVecLen "top_p" p.top_p n = .ok () := by
              apply checkVecLen_ok; intro arr ha
              by_contra hne; exact hb4 ⟨arr, ha, hne⟩
            by_cases hb5 : ∃ arr, p.presence_penalty = some arr ∧ arr.length ≠ n
            · obtain ⟨arr, ha, hl⟩ := hb5
              exact ⟨.presence_penalty, arr.length,
                by simp [BatchParamField.len, ha], hl,
                by simp [BatchChatCompletionParamsWithSize.tryInto, h1, h2, h3,
                  h4, ha, checkVecLen_bad "presence_penalty" arr n hl,
                  Bind.bind, Except.bind, BatchParamField.name]⟩
            · have h5 : checkVecLen "presence_penalty" p.presence_penalty n =
                  .ok () := by
                apply checkVecLen_ok; intro arr ha
                by_contra hne; exact hb5 ⟨arr, ha, hne⟩
              by_cases hb6 : ∃ arr, p.frequency_penalty = some arr ∧
                  arr.length ≠ n
              · obtain ⟨arr, ha, hl⟩ := hb6
                exact ⟨.frequency_penalty, arr.length,
                  by simp [BatchParamField.len, ha], hl,
                  by simp [BatchChatCompletionParamsWithSize.tryInto, h1, h2,
                    h3, h4, h5, ha,
                    checkVecLen_bad "frequency_penalty" arr n hl,
                    Bind.bind, Except.bind, BatchParamField.name]⟩
              · exfalso
                obtain ⟨f, len, hflen, hne⟩ := hex
                cases f with
                | temperature =>
                  obtain ⟨arr, ha, hl⟩ := Option.map_eq_some'.mp hflen
                  exact hb1 ⟨arr, ha, hl ▸ hne⟩
                | max_tokens =>
                  obtain ⟨arr, ha, hl⟩ := Option.map_eq_some'.mp hflen
                  exact hb2 ⟨arr, ha, hl ▸ hne⟩
                | seed =>
                  obtain ⟨arr, ha, hl⟩ := Option.map_eq_some'.mp hflen
                  exact hb3 ⟨arr, ha, hl ▸ hne⟩
                | top_p =>
                  obtain ⟨arr, ha, hl⟩ := Option.map_eq_some'.mp hflen
                  exact hb4 ⟨arr, ha, hl ▸ hne⟩
                | presence_penalty =>
                  obtain ⟨arr, ha, hl⟩ := Option.map_eq_some'.mp hflen
                  exact hb5 ⟨arr, ha, hl ▸ hne⟩
                | frequency_penalty =>
                  obtain ⟨arr, ha, hl⟩ := Option.map_eq_some'.mp hflen
                  exact hb6 ⟨arr, ha, hl ▸ hne⟩
  · intro arr ha hl
    simp [BatchOutputSchemasWithSize.tryInto, ha, hl]
  · intro arr ha hl
    simp [BatchOutputSchemasWithSize.tryInto, ha, hl]
  · intro ha
    simp [BatchOutputSchemasWithSize.tryInto, ha]

/-- C3 witness: three inputs with a temperature array of length 2 produce
exactly the message "temperature vector length (2) does not match number
of inferences (3)", and an omitted output_schemas array becomes three
`None` entries. -/
theorem batch_param_vector_lengths_witness :
    BatchChatCompletionParamsWithSize.tryInto
      ⟨some [some ⟨1056964608⟩, none], none, none, none, none, none⟩ 3 =
      .error (.invalidRequest
        "temperature vector length (2) does not match number of inferences (3)")
    ∧ BatchOutputSchemasWithSize.tryInto none 3 =
      .ok (List.replicate 3 none) := by
  constructor
  · have h := (batch_param_vector_lengths
      ⟨some [some ⟨1056964608⟩, none], none, none, none, none, none⟩
      none 3).2.1 [some ⟨1056964608⟩, none] rfl (by decide)
    exact h.trans (by rfl)
  · exact (batch_param_vector_lengths
      ⟨some [some ⟨1056964608⟩, none], none, none, none, none, none⟩
      none 3).2.2.2.2.2 rfl

/-- Entry `i` of the filled episode-id list: a provided id is kept, a
`None` entry becomes the next fresh mint (counting the `None` entries
before it). -/
theorem fillEpisodeIds_getElem (fresh : Nat → UuidV7) :
    ∀ (eids : List (Option UuidV7)) (k i : Nat),
      (fillEpisodeIds fresh k eids)[i]? =
        match eids[i]? with
        | some (some u) => some u
        | some none => some (fresh (k + (eids.take i).countP Option.isNone))
        | none => none := by
  intro eids
  induction eids with
  | nil => intro k i; simp [fillEpisodeIds]
  | cons e rest ih =>
    intro k i
    cases e with
    | some u =>
      cases i with
      | zero => simp [fillEpisodeIds]
      | succ j =>
        have hstep : (fillEpisodeIds fresh k (some u :: rest))[j + 1]? =
            (fillEpisodeIds fresh k rest)[j]? := by simp [fillEpisodeIds]
        rw [hstep, ih k j, List.getElem?_cons_succ, List.take_succ_cons,
          @List.countP_cons_of_neg _ Option.isNone (some u)
            (List.take j rest) (by simp)]
    | none =>
      cases i with
      | zero => simp [fillEpisodeIds]
      | succ j =>
        have hstep : (fillEpisodeIds fresh k (none :: rest))[j + 1]? =
            (fillEpisodeIds fresh (k + 1) rest)[j]? := by simp [fillEpisodeIds]
        rw [hstep, ih (k + 1) j, List.getElem?_cons_succ, List.take_succ_cons,
          @List.countP_cons_of_pos _ Option.isNone none
            (List.take j rest) (by simp)]
        rcases rest[j]? with _ | ou
        · rfl
        · cases ou with
          | some v => rfl
          | none =>
            dsimp only
            congr 2
            omega

/-- Validation succeeds when every id passes the floor. -/
theorem validateEpisodeIdsFrom_ok (ids : List UuidV7) :
    ∀ s, (∀ id ∈ ids, EPISODE_ID_FLOOR_MS ≤ id.timestampMs) →
      validateEpisodeIdsFrom s ids = .ok () := by
  induction ids with
  | nil => intro s _; rfl
  | cons id rest ih =>
    intro s h
    have hid : validate_episode_id id = .ok () := by
      simp [validate_episode_id, Nat.not_lt.mpr (h id (by simp))]
    simp only [validateEpisodeIdsFrom, hid]
    exact ih (s + 1) (fun x hx => h x (by simp [hx]))

/-- Validation reports the first failing index, offset by the start. -/
theorem validateEpisodeIdsFrom_err (ids : List UuidV7) :
    ∀ (s i : Nat) (u : UuidV7), ids[i]? = some u →
      u.timestampMs < EPISODE_ID_FLOOR_MS →
      (∀ (j : Nat) (v : UuidV7), j < i → ids[j]? = some v →
        EPISODE_ID_FLOOR_MS ≤ v.timestampMs) →
      validateEpisodeIdsFrom s ids =
        .error (.batchInputValidation (s + i)
          "Invalid Episode ID: Timestamp is too early") := by
  induction ids with
  | nil => intro s i u hi; simp at hi
  | cons id rest ih =>
    intro s i u hi hu hprev
    cases i with
    | zero =>
      have hid : id = u := by simpa using hi
      subst hid
      have herr : validate_episode_id id =
          .error "Invalid Episode ID: Timestamp is too early" := by
        simp [validate_episode_id, hu]
      simp only [validateEpisodeIdsFrom, herr, Nat.add_zero]
    | succ j =>
      have hid : validate_episode_id id = .ok () := by
        simp [validate_episode_id,
          Nat.not_lt.mpr (hprev 0 id (by omega) (by simp))]
      have hrest := ih (s + 1) j u (by simpa using hi) hu
        (fun j' v hj' hv =>
          hprev (j' + 1) v (by omega) (by simpa using hv))
      simp only [validateEpisodeIdsFrom, hid, hrest]
      congr 2
      omega

/-- C4: every missing episode-id entry is defaulted to a freshly minted
UUIDv7; every entry (provided or defaulted) is validated against the fixed
timestamp floor, and a provided id below the floor at position `i` (with
the earlier provided ids valid) fails the call with
`BatchInputValidation{index: i, message: "Invalid Episode ID: Timestamp is
too early"}`. -/
theorem batch_episode_id_validation (eids : List (Option UuidV7)) (n : Nat)
    (fresh : Nat → UuidV7) (hlen : eids.length = n)
    (hfresh : ∀ k, EPISODE_ID_FLOOR_MS ≤ (fresh k).timestampMs) :
    ((∀ (j : Nat) (u : UuidV7), eids[j]? = some (some u) →
        EPISODE_ID_FLOOR_MS ≤ u.timestampMs) →
      BatchEpisodeIdsWithSize.tryInto (some eids) n fresh =
        .ok (fillEpisodeIds fresh 0 eids)
      ∧ (∀ (j : Nat) (u : UuidV7), eids[j]? = some (some u) →
          (fillEpisodeIds fresh 0 eids)[j]? = some u)
      ∧ (∀ j : Nat, eids[j]? = some none →
          (fillEpisodeIds fresh 0 eids)[j]? =
            some (fresh ((eids.take j).countP Option.isNone))))
    ∧ (∀ (i : Nat) (u : UuidV7), eids[i]? = some (some u) →
        u.timestampMs < EPISODE_ID_FLOOR_MS →
        (∀ (j : Nat) (v : UuidV7), j < i → eids[j]? = some (some v) →
          EPISODE_ID_FLOOR_MS ≤ v.timestampMs) →
        BatchEpisodeIdsWithSize.tryInto (some eids) n fresh =
          .error (.batchInputValidation i
            "Invalid Episode ID: Timestamp is too early")) := by
  have hfill : ∀ j, (fillEpisodeIds fresh 0 eids)[j]? =
      match eids[j]? with
      | some (some u) => some u
      | some none => some (fresh (0 + (eids.take j).countP Option.isNone))
      | none => none := fun j => fillEpisodeIds_getElem fresh eids 0 j
  constructor
  · intro hvalid
    have hok : validateEpisodeIdsFrom 0 (fillEpisodeIds fresh 0 eids) =
        .ok () := by
      apply validateEpisodeIdsFrom_ok
      intro id hid
      rw [List.mem_iff_getElem?] at hid
      obtain ⟨j, hj⟩ := hid
      rw [hfill j] at hj
      rcases hej : eids[j]? with _ | ou
      · rw [hej] at hj; simp at hj
      · cases ou with
        | some u =>
          rw [hej] at hj
          simp only [Option.some.injEq] at hj
          subst hj
          exact hvalid j u hej
        | none =>
          rw [hej] at hj
          simp only [Option.some.injEq] at hj
          subst hj
          exact hfresh _
    refine ⟨?_, ?_, ?_⟩
    · simp [BatchEpisodeIdsWithSize.tryInto, hlen, hok]
    · intro j u hj
      rw [hfill j, hj]
    · intro j hj
      rw [hfill j, hj]
      simp
  · intro i u hi hu hprev
    have hfi : (fillEpisodeIds fresh 0 eids)[i]? = some u := by
      rw [hfill i, hi]
    have herr := validateEpisodeIdsFrom_err (fillEpisodeIds fresh 0 eids)
      0 i u hfi hu ?_
    · simp only [Nat.zero_add] at herr
      simp [BatchEpisodeIdsWithSize.tryInto, hlen, herr]
    · intro j v hj hv
      rw [hfill j] at hv
      rcases hej : eids[j]? with _ | ou
      · rw [hej] at hv; simp at hv
      · cases ou with
        | some w =>
          rw [hej] at hv
          simp only [Option.some.injEq] at hv
          subst hv
          exact hprev j w hj hej
        | none =>
          rw [hej] at hv
          simp only [Option.some.injEq] at hv
          subst hv
          exact hfresh _

/-- C4 witness: an episode id built from unix time 946766218 at position 0
(among 3 inputs) fails with `BatchInputValidation{index: 0, message:
"Invalid Episode ID: Timestamp is too early"}`. -/
theorem batch_episode_id_validation_witness :
    BatchEpisodeIdsWithSize.tryInto
      (some [some ⟨946766218000, 0⟩, none, none]) 3
      (fun k => ⟨1577836800000 + k, 0⟩) =
      .error (.batchInputValidation 0
        "Invalid Episode ID: Timestamp is too early") :=
  (batch_episode_id_validation [some ⟨946766218000, 0⟩, none, none] 3
    (fun k => ⟨1577836800000 + k, 0⟩) rfl
    (fun k => Nat.le_add_right _ _)).2 0 ⟨946766218000, 0⟩ rfl (by decide)
    (fun j v hj _ => absurd hj (by omega))

/-- The fill of an all-`None` list is one separate mint per entry. -/
theorem fillEpisodeIds_replicate_none (fresh : Nat → UuidV7) :
    ∀ n k, fillEpisodeIds fresh k (List.replicate n none) =
      (List.range n).map (fun i => fresh (k + i)) := by
  intro n
  induction n with
  | zero => intro k; rfl
  | succ n ih =>
    intro k
    rw [List.replicate_succ]
    show fresh k :: fillEpisodeIds fresh (k + 1) (List.replicate n none) = _
    rw [ih (k + 1), List.range_succ_eq_map]
    simp only [List.map_cons, Nat.add_zero, List.map_map]
    refine congrArg₂ _ rfl ?_
    apply List.map_congr_left
    intro a _
    simp only [Function.comp_apply, Nat.succ_eq_add_one]
    congr 1
    omega

/-- C9: when `episode_ids` is omitted entirely, a single UUIDv7 is minted
and cloned `n` times, so all generated episode ids are equal; when an
all-`None` array of length `n` is provided, each entry is replaced by a
separately minted UUIDv7 (entry `i` is the (i+1)-th mint). -/
theorem batch_episode_id_minting (n : Nat) (fresh : Nat → UuidV7)
    (hfresh : ∀ k, EPISODE_ID_FLOOR_MS ≤ (fresh k).timestampMs) :
    (BatchEpisodeIdsWithSize.tryInto none n fresh =
        .ok (List.replicate n (fresh 0))
      ∧ ∀ i j, i < n → j < n →
          (List.replicate n (fresh 0))[i]? =
            (List.replicate n (fresh 0))[j]?)
    ∧ (BatchEpisodeIdsWithSize.tryInto (some (List.replicate n none)) n
          fresh =
        .ok ((List.range n).map fresh)
      ∧ ∀ i, i < n → ((List.range n).map fresh)[i]? = some (fresh i)) := by
  constructor
  · constructor
    · have hok : validateEpisodeIdsFrom 0 (List.replicate n (fresh 0)) =
          .ok () := by
        apply validateEpisodeIdsFrom_ok
        intro id hid
        rw [List.eq_of_mem_replicate hid]
        exact hfresh 0
      simp [BatchEpisodeIdsWithSize.tryInto, hok]
    · intro i j hi hj
      simp [List.getElem?_replicate, hi, hj]
  · have hfill : fillEpisodeIds fresh 0 (List.replicate n none) =
        (List.range n).map fresh := by
      rw [fillEpisodeIds_replicate_none fresh n 0]
      apply List.map_congr_left
      intro a _
      simp
    constructor
    · have hok : validateEpisodeIdsFrom 0 ((List.range n).map fresh) =
          .ok () := by
        apply validateEpisodeIdsFrom_ok
        intro id hid
        rw [List.mem_map] at hid
        obtain ⟨i, _, rfl⟩ := hid
        exact hfresh i
      simp [BatchEpisodeIdsWithSize.tryInto, hfill, hok]
    · intro i hi
      simp [List.getElem?_map, List.getElem?_range, hi]

/-- C9 witness: with the episode_ids field omitted both generated ids are
the same single mint, while an explicit `[null, null]` produces two
distinct mints. -/
theorem batch_episode_id_minting_witness :
    BatchEpisodeIdsWithSize.tryInto none 2
      (fun k => ⟨1577836800000 + k, 0⟩) =
      .ok [⟨1577836800000, 0⟩, ⟨1577836800000, 0⟩]
    ∧ BatchEpisodeIdsWithSize.tryInto (some [none, none]) 2
      (fun k => ⟨1577836800000 + k, 0⟩) =
      .ok [⟨1577836800000, 0⟩, ⟨1577836800001, 0⟩] := by
  have h := batch_episode_id_minting 2 (fun k => ⟨1577836800000 + k, 0⟩)
    (fun k => Nat.le_add_right _ _)
  exact ⟨h.1.1.trans (by rfl), (h.2.1).trans (by rfl)⟩

/-- The window walk finds a candidate whenever `u` is below the total
weight. -/
theorem chooseVariant_isSome (weight : String → Nat) :
    ∀ (l : List String) (u : Nat), u < (l.map weight).sum →
      ∃ nm r, chooseVariant weight u l = some (nm, r) := by
  intro l
  induction l with
  | nil => intro u hu; simp at hu
  | cons a t ih =>
    intro u hu
    rw [chooseVariant]
    by_cases hua : u < weight a
    · rw [if_pos hua]; exact ⟨a, t, rfl⟩
    · rw [if_neg hua]
      have hlt : u - weight a < (t.map weight).sum := by
        simp only [List.map_cons, List.sum_cons] at hu
        omega
      obtain ⟨nm, r, hch⟩ := ih (u - weight a) hlt
      exact ⟨nm, a :: r, by rw [hch]; rfl⟩

/-- The chosen candidate together with the remaining list is a permutation
of the input: exactly the chosen one is removed. -/
theorem chooseVariant_perm (weight : String → Nat) :
    ∀ (l : List String) (u : Nat) (nm : String) (r : List String),
      chooseVariant weight u l = some (nm, r) → l.Perm (nm :: r) := by
  intro l
  induction l with
  | nil => intro u nm r h; simp [chooseVariant] at h
  | cons a t ih =>
    intro u nm r h
    rw [chooseVariant] at h
    by_cases hua : u < weight a
    · rw [if_pos hua] at h
      simp only [Option.some.injEq, Prod.mk.injEq] at h
      rw [← h.1, ← h.2]
    · rw [if_neg hua] at h
      rcases hcc : chooseVariant weight (u - weight a) t with _ | q
      · rw [hcc] at h; simp at h
      · rw [hcc] at h
        obtain ⟨q1, q2⟩ := q
        simp only [Option.map_some', Option.some.injEq, Prod.mk.injEq] at h
        obtain ⟨h1, h2⟩ := h
        subst h1
        rw [← h2]
        have hp := ih (u - weight a) q1 q2 hcc
        exact (hp.cons a).trans (List.Perm.swap q1 a q2)

/-- With a nonempty candidate list of positive weights, `sample_variant`
succeeds, the sampled name is a candidate, and it is removed from the
remainder. -/
theorem sample_variant_spec (weight : String → Nat)
    (hash : UuidV7 → String → Nat) (function_name : String)
    (episode_id : UuidV7) (c : String) (cs : List String)
    (hpos : ∀ n ∈ c :: cs, 0 < weight n) :
    ∃ nm r, sample_variant weight hash function_name episode_id (c :: cs) =
        .ok (nm, r) ∧ (c :: cs).Perm (nm :: r) ∧ nm ∈ c :: cs := by
  have htot : 0 < ((c :: cs).map weight).sum := by
    have hc := hpos c (by simp)
    simp only [List.map_cons, List.sum_cons]
    omega
  obtain ⟨nm, r, hch⟩ := chooseVariant_isSome weight (c :: cs)
    (hash episode_id function_name % ((c :: cs).map weight).sum)
    (Nat.mod_lt _ htot)
  have hperm := chooseVariant_perm weight (c :: cs) _ nm r hch
  refine ⟨nm, r, ?_, hperm, hperm.symm.subset (List.mem_cons_self _ _)⟩
  simp only [sample_variant]
  rw [if_neg (by omega), hch]

/-- A successful sample is always a candidate removed from the
remainder (no positivity assumption needed). -/
theorem sample_variant_perm_of_ok (weight : String → Nat)
    (hash : UuidV7 → String → Nat) (function_name : String)
    (episode_id : UuidV7) (cands : List String) (nm : String)
    (r : List String)
    (h : sample_variant weight hash function_name episode_id cands =
      .ok (nm, r)) : cands.Perm (nm :: r) := by
  simp only [sample_variant] at h
  by_cases htot : ((cands.map weight).sum = 0)
  · rw [if_pos htot] at h; exact absurd h (by simp)
  · rw [if_neg htot] at h
    rcases hch : chooseVariant weight
        (hash episode_id function_name % (cands.map weight).sum) cands
      with _ | p
    · rw [hch] at h; exact absurd h (by simp)
    · rw [hch] at h
      obtain ⟨p1, p2⟩ := p
      simp only [Except.ok.injEq, Prod.mk.injEq] at h
      obtain ⟨h1, h2⟩ := h
      subst h1; subst h2
      exact chooseVariant_perm weight cands _ _ _ hch

/-- When every candidate's `start_batch_inference` fails, the loop
attempts each candidate exactly once and returns `AllVariantsFailed`
mapping every attempted variant name to its error (appended after any
previously collected errors). -/
theorem batchVariantLoop_all_fail (σ : Type) (weight : String → Nat)
    (hash : UuidV7 → String → Nat) (function_name : String) (e : UuidV7)
    (startBatch : String → Except ErrorDetails σ)
    (err : String → ErrorDetails) :
    ∀ (N : Nat) (cands : List String), cands.length ≤ N →
      ∀ (errs0 : List (String × ErrorDetails)),
      (∀ n ∈ cands, 0 < weight n) →
      (∀ n ∈ cands, startBatch n = .error (err n)) →
      ∃ attempted : List String, attempted.Perm cands ∧
        batchVariantLoop σ weight hash function_name e startBatch cands
            errs0 =
          .error (.allVariantsFailed
            (errs0 ++ attempted.map (fun n => (n, err n)))) := by
  intro N
  induction N with
  | zero =>
    intro cands hlen errs0 _ _
    have hnil : cands = [] := List.eq_nil_of_length_eq_zero (by omega)
    subst hnil
    exact ⟨[], List.Perm.refl _, by simp [batchVariantLoop]⟩
  | succ N ih =>
    intro cands hlen errs0 hp hf
    cases cands with
    | nil => exact ⟨[], List.Perm.refl _, by simp [batchVariantLoop]⟩
    | cons c cs =>
      obtain ⟨nm, r, hsv, hperm, hmem⟩ :=
        sample_variant_spec weight hash function_name e c cs hp
      have hfail : startBatch nm = .error (err nm) := hf nm hmem
      have hstep : batchVariantLoop σ weight hash function_name e startBatch
          (c :: cs) errs0 =
          batchVariantLoop σ weight hash function_name e startBatch r
            (errs0 ++ [(nm, err nm)]) := by
        simp only [batchVariantLoop]
        split
        · rename_i e2 heq
          rw [hsv] at heq
          exact absurd heq (by simp)
        · rename_i nm2 r2 heq
          rw [hsv] at heq
          simp only [Except.ok.injEq, Prod.mk.injEq] at heq
          obtain ⟨h1, h2⟩ := heq
          subst h1; subst h2
          rw [hfail]
      rw [hstep]
      have hrlen : r.length ≤ N := by
        have := hperm.length_eq
        simp only [List.length_cons] at this hlen
        omega
      obtain ⟨att, hattperm, hattres⟩ := ih r hrlen
        (errs0 ++ [(nm, err nm)])
        (fun n hn => hp n (hperm.symm.subset (by simp [hn])))
        (fun n hn => hf n (hperm.symm.subset (by simp [hn])))
      refine ⟨nm :: att, ?_, ?_⟩
      · exact (hattperm.cons nm).trans hperm.symm
      · rw [hattres]
        simp

/-- A successful loop run returns a candidate on which
`start_batch_inference` succeeded. -/
theorem batchVariantLoop_ok_mem (σ : Type) (weight : String → Nat)
    (hash : UuidV7 → String → Nat) (function_name : String) (e : UuidV7)
    (startBatch : String → Except ErrorDetails σ) :
    ∀ (N : Nat) (cands : List String), cands.length ≤ N →
      ∀ (errs0 : List (String × ErrorDetails)) (nm : String) (s : σ),
      batchVariantLoop σ weight hash function_name e startBatch cands
          errs0 = .ok (nm, s) →
      nm ∈ cands ∧ startBatch nm = .ok s := by
  intro N
  induction N with
  | zero =>
    intro cands hlen errs0 nm s h
    have hnil : cands = [] := List.eq_nil_of_length_eq_zero (by omega)
    subst hnil
    simp [batchVariantLoop] at h
  | succ N ih =>
    intro cands hlen errs0 nm s h
    cases cands with
    | nil => simp [batchVariantLoop] at h
    | cons c cs =>
      simp only [batchVariantLoop] at h
      split at h
      · exact absurd h (by simp)
      · rename_i nm2 r2 heq
        have hperm := sample_variant_perm_of_ok weight hash function_name
          e (c :: cs) nm2 r2 heq
        split at h
        · rename_i s2 hok
          simp only [Except.ok.injEq, Prod.mk.injEq] at h
          obtain ⟨h1, h2⟩ := h
          subst h1; subst h2
          exact ⟨hperm.symm.subset (List.mem_cons_self _ _), hok⟩
        · rename_i e2 herr
          have hrlen : r2.length ≤ N := by
            have := hperm.length_eq
            simp only [List.length_cons] at this hlen
            omega
          obtain ⟨hmem, hok⟩ := ih r2 hrlen _ nm s h
          exact ⟨hperm.symm.subset (by simp [hmem]), hok⟩

/-- C8: one variant is sampled per attempt, keyed on the first episode id
only (the other episode ids do not influence selection); one sampled
variant is used for the whole batch (a success returns that single
candidate name, with `start_batch_inference` succeeding on it); each
failing variant is recorded under its name and removed from the candidate
set; and if every candidate fails, the handler returns
`AllVariantsFailed` mapping each attempted variant name to its error, with
every candidate attempted exactly once. -/
theorem batch_variant_sampling (σ : Type) (weight : String → Nat)
    (hash : UuidV7 → String → Nat) (function_name : String) (e : UuidV7)
    (r1 r2 : List UuidV7) (startBatch : String → Except ErrorDetails σ)
    (err : String → ErrorDetails) (candidates : List String) :
    (startBatchSampling σ weight hash function_name startBatch (e :: r1)
        candidates =
      startBatchSampling σ weight hash function_name startBatch (e :: r2)
        candidates)
    ∧ ((∀ n ∈ candidates, 0 < weight n) →
        (∀ n ∈ candidates, startBatch n = .error (err n)) →
        ∃ attempted : List String, attempted.Perm candidates ∧
          startBatchSampling σ weight hash function_name startBatch
              (e :: r1) candidates =
            .error (.allVariantsFailed
              (attempted.map (fun n => (n, err n)))))
    ∧ (∀ (nm : String) (s : σ),
        startBatchSampling σ weight hash function_name startBatch (e :: r1)
            candidates = .ok (nm, s) →
        nm ∈ candidates ∧ startBatch nm = .ok s) := by
  refine ⟨rfl, ?_, ?_⟩
  · intro hp hf
    obtain ⟨att, hattperm, hattres⟩ := batchVariantLoop_all_fail σ weight
      hash function_name e startBatch err candidates.length candidates
      le_rfl [] hp hf
    refine ⟨att, hattperm, ?_⟩
    show batchVariantLoop σ weight hash function_name e startBatch
      candidates [] = _
    rw [hattres]
    simp
  · intro nm s h
    exact batchVariantLoop_ok_mem σ weight hash function_name e startBatch
      candidates.length candidates le_rfl [] nm s h

/-- C8 witness: with two unit-weight candidates that both fail, a concrete
run returns `AllVariantsFailed` covering both names, and selection ignores
the non-leading episode ids. -/
theorem batch_variant_sampling_witness :
    (startBatchSampling Unit (fun _ => 1) (fun _ _ => 0) "echo"
        (fun n => .error (.inference n)) [⟨1700000000000, 1⟩] ["a", "b"] =
      startBatchSampling Unit (fun _ => 1) (fun _ _ => 0) "echo"
        (fun n => .error (.inference n))
        [⟨1700000000000, 1⟩, ⟨1700000000001, 2⟩] ["a", "b"])
    ∧ ∃ attempted : List String, attempted.Perm ["a", "b"] ∧
        startBatchSampling Unit (fun _ => 1) (fun _ _ => 0) "echo"
            (fun n => .error (.inference n)) [⟨1700000000000, 1⟩]
            ["a", "b"] =
          .error (.allVariantsFailed
            (attempted.map (fun n => (n, .inference n)))) := by
  have h := batch_variant_sampling Unit (fun _ => 1) (fun _ _ => 0) "echo"
    ⟨1700000000000, 1⟩ [] [⟨1700000000001, 2⟩]
    (fun n => .error (.inference n)) (fun n => .inference n) ["a", "b"]
  exact ⟨h.1, h.2.1 (fun n _ => Nat.one_pos) (fun n _ => rfl)⟩

end TensorZero
